import Mathlib

/-!
Verification of the LeetMentor background service worker (background.js, the
active "production-ready" coordinator).  The definitions below are a shallow
embedding of that file: per-tab activity state, the persisted hint ledger in
chrome.storage.local, the request_hint / request_code_snippet /
reset_hints message handlers, the idle-check loop, and the local hint and
excerpt generators.  External interactions (the content-script context
round-trip and the backend fetch) are modelled as oracle inputs to a request;
the side effects a request performs are recorded as an ordered event trace.
-/

namespace LeetMentor

/-- JS truthiness for strings: the empty string is falsy, every other string
is truthy (`ctx.problemId || ctx.url || 'unknown'`-style defaulting).  An
absent (undefined) field is modelled as `""`, which JS treats identically in
every boolean position the code uses. -/
def truthy (s : String) : Bool := !(s == "")

/-- `IDLE_MS = 3 * 60 * 1000` from background.js. -/
def IDLE_MS : Nat := 3 * 60 * 1000

/-- `MAX_HINTS_PER_PROBLEM = 3` from background.js. -/
def MAX_HINTS_PER_PROBLEM : Nat := 3

/-- `DEFAULT_SETTINGS` / the `leetmentor_settings` record. -/
structure Settings where
  allowSendCodeToServer : Bool
  serverUrl : String
deriving DecidableEq, Repr

/-- `DEFAULT_SETTINGS` from background.js. -/
def DEFAULT_SETTINGS : Settings :=
  { allowSendCodeToServer := false, serverUrl := "http://localhost:3000/hint" }

/-- The context record produced by the content script:
`{ problemId, snippet, url, failure }`.  `""` models an absent field. -/
structure Context where
  problemId : String
  snippet : String
  url : String
  failure : String
deriving DecidableEq, Repr

/-- The JSON body POSTed to the backend (`sendCodeToServer` argument):
`{ problemId, snippet, url, failure, request? }`. -/
structure Payload where
  problemId : String
  snippet : String
  url : String
  failure : String
  request : String := ""
deriving DecidableEq, Repr

/-- Parsed JSON of a 2xx server response: `{ hint?, snippet? }`
(`""` models an absent field). -/
structure ServerJson where
  hint : String
  snippet : String
deriving DecidableEq, Repr

/-- Oracle for the outcome of one backend fetch, were it issued:
`failure` covers network errors, timeouts (AbortController), non-2xx statuses
and unparseable bodies (everything the code turns into a thrown error);
`success` carries the parsed JSON fields. -/
inductive ServerOutcome where
  | failure : ServerOutcome
  | success (hint : String) (snippet : String) : ServerOutcome
deriving DecidableEq, Repr

/-- The object passed to `sendResponse` by the handlers.  Fields the JS
response object omits are `none`. -/
structure HintResponse where
  ok : Bool
  hint : Option String := none
  action : Option String := none
  error : Option String := none
  snippet : Option String := none
deriving DecidableEq, Repr

/-- The persisted `leetmentor_hints_map`: problemId to count, absent key = 0
(the code always reads with `hintCounts[problemId] || 0`). -/
def Ledger : Type := String → Nat

/-- The persisted `leetmentor_hint_cache` (only ever cleared by the active
coordinator, never read on the hint path). -/
def Cache : Type := String → Option (String × Nat)

/-- chrome.storage.local as the handlers see it: the three persisted keys;
`none` means the key is absent from storage. -/
structure Storage where
  hintsMap : Option Ledger
  hintCache : Option Cache
  settings : Option Settings

/-- One entry of `tabState` (in-memory, per tab).  Numeric fields the code
leaves undefined are `none` (read back with `|| 0`). -/
structure TabInfo where
  lastInputTs : Option Nat := none
  lastSubmitTs : Option Nat := none
  stuck : Bool := false
  failureReason : Option String := none
deriving DecidableEq, Repr

/-- Whole in-process state: durable storage plus the in-memory `tabState`
map (absent tab = `none`). -/
structure State where
  storage : Storage
  tabState : Nat → Option TabInfo

/-- Fresh-install state: no storage keys, no tab entries. -/
def initState : State :=
  { storage := { hintsMap := none, hintCache := none, settings := none },
    tabState := fun _ => none }

/-- `getHintCounts`: `s.leetmentor_hints_map || {}`. -/
def getHintCounts (st : Storage) : Ledger := st.hintsMap.getD (fun _ => 0)

/-- `setHintCounts(map)`: whole-value overwrite of the storage key. -/
def setHintCounts (st : Storage) (m : Ledger) : Storage := { st with hintsMap := some m }

/-- `resetHintCounts`: `storageRemove(['leetmentor_hints_map', 'leetmentor_hint_cache'])`. -/
def resetHintCounts (st : Storage) : Storage := { st with hintsMap := none, hintCache := none }

/-- Read the hint cache back: `data.leetmentor_hint_cache || {}`. -/
def getHintCache (st : Storage) : Cache := st.hintCache.getD (fun _ => none)

/-- `ensureSettings`: read `leetmentor_settings`, fill defaults for missing
fields, write the result back, return it.  (An absent record yields all
defaults; a present record is returned as stored.) -/
def ensureSettings (st : Storage) : Settings × Storage :=
  let s := st.settings.getD DEFAULT_SETTINGS
  (s, { st with settings := some s })

/-- `const problemId = ctx.problemId || ctx.url || 'unknown';` -/
def deriveProblemId (ctx : Context) : String :=
  if truthy ctx.problemId then ctx.problemId
  else if truthy ctx.url then ctx.url
  else "unknown"

/-- JS `toLowerCase()` (ASCII, as exercised by the keyword checks). -/
def jsToLower (s : String) : String := String.mk (s.data.map Char.toLower)

/-- JS `String.prototype.includes(pat)`: `pat` occurs contiguously in `s`. -/
def containsSub (s pat : String) : Bool := decide (List.IsInfix pat.data s.data)

/-- `generateHint(context)` from background.js: the local heuristic hint. -/
def generateHint (context : Context) : String :=
  let p := jsToLower context.problemId
  if containsSub p "two-sum"
      || (truthy context.url && containsSub (jsToLower context.url) "two-sum") then
    "Hint: Use a hash map to store seen values and check complements in one pass."
  else
    let fail := jsToLower context.failure
    if containsSub fail "index" || containsSub fail "out of range"
        || containsSub fail "indexerror" then
      "Hint: Check your indices and boundary conditions — arrays are 0-indexed."
    else if containsSub fail "time limit" || containsSub fail "tle" then
      "Hint: Consider using a more efficient data structure or reduce nested loops (aim for O(n) or O(n log n))."
    else
      "Hint: Break the problem into smaller subproblems. Write down examples and consider data structures that give O(1) lookups."

/-- The side effects a handler performs, in source order:
a backend `fetch` (inside `sendCodeToServer`), the point where `hintText` is
finally assigned, the `setHintCounts` ledger write, the
`show_hint_in_page` message, and the final `sendResponse`. -/
inductive Event where
  | serverCall (payload : Payload)
  | hintChosen (text : String) (fromServer : Bool)
  | commitIncrement (problemId : String) (newCount : Nat)
  | showHintInPage (tabId : Nat) (text : String)
  | respond (r : HintResponse)
deriving DecidableEq, Repr

/-- `sendCodeToServer(context)`: throws `send_disabled` before fetching when
consent is off, throws `no_server_url` when the url is falsy, otherwise
performs the fetch (recorded as a `serverCall` event) whose outcome the
oracle supplies.  A thrown/failed call is `none` (the caller catches it). -/
def sendCodeToServer (settings : Settings) (payload : Payload)
    (outcome : ServerOutcome) : List Event × Option ServerJson :=
  if !settings.allowSendCodeToServer then ([], none)
  else if !truthy settings.serverUrl then ([], none)
  else
    match outcome with
    | .failure => ([Event.serverCall payload], none)
    | .success h sn => ([Event.serverCall payload], some { hint := h, snippet := sn })

/-- The resolved inputs of one `request_hint` / `request_code_snippet`
message: the target tab (after the `msg.tabId || sender.tab || active tab`
chain; `none` = no tab found), the content-script context (`none` = the
collector never responded), and the backend-fetch oracle. -/
structure RequestInput where
  tabId : Option Nat
  ctx : Option Context
  server : ServerOutcome
deriving DecidableEq, Repr

/-- What one handler run produces: the successor state, the ordered event
trace, and the value passed to `sendResponse`. -/
structure HandlerResult where
  state : State
  events : List Event
  resp : HintResponse

/-- The `request_hint` message handler from background.js. -/
def requestHint (st : State) (req : RequestInput) : HandlerResult :=
  match req.tabId with
  | none =>
      let r : HintResponse := { ok := false, error := some "no_tab" }
      ⟨st, [Event.respond r], r⟩
  | some tabId =>
    match req.ctx with
    | none =>
        let r : HintResponse := { ok := false, error := some "no_context" }
        ⟨st, [Event.respond r], r⟩
    | some ctx =>
      let problemId := deriveProblemId ctx
      let hintCounts := getHintCounts st.storage
      let current := hintCounts problemId
      if current ≥ MAX_HINTS_PER_PROBLEM then
        let r : HintResponse := { ok := true, action := some "ask_for_code" }
        ⟨st, [Event.respond r], r⟩
      else
        let settings := (ensureSettings st.storage).1
        let storage1 := (ensureSettings st.storage).2
        let srvPair :=
          if settings.allowSendCodeToServer then
            sendCodeToServer settings
              { problemId := problemId, snippet := ctx.snippet,
                url := ctx.url, failure := ctx.failure } req.server
          else ([], none)
        let hintFromServer : Option String :=
          match srvPair.2 with
          | some json => if truthy json.hint then some json.hint else none
          | none => none
        let hintText :=
          match hintFromServer with
          | some h => h
          | none =>
              generateHint
                { problemId := problemId, snippet := ctx.snippet,
                  url := ctx.url, failure := ctx.failure }
        let newCounts : Ledger :=
          fun k => if k = problemId then current + 1 else hintCounts k
        let storage2 := setHintCounts storage1 newCounts
        let r : HintResponse := { ok := true, hint := some hintText }
        ⟨{ st with storage := storage2 },
         srvPair.1 ++ [Event.hintChosen hintText hintFromServer.isSome,
                       Event.commitIncrement problemId (current + 1),
                       Event.showHintInPage tabId hintText,
                       Event.respond r],
         r⟩

/-- JS `split(/\r?\n/)` on the character list: each match of the regex
(leftmost, `\r\n` preferred over bare `\n`) ends a piece; a `\r` not
followed by `\n` is ordinary text. -/
def splitRN : List Char → List (List Char)
  | [] => [[]]
  | '\r' :: '\n' :: rest => [] :: splitRN rest
  | '\n' :: rest => [] :: splitRN rest
  | c :: rest =>
    match splitRN rest with
    | [] => [[c]]
    | l :: ls => (c :: l) :: ls

/-- JS `split('\n')` on the character list. -/
def splitN : List Char → List (List Char)
  | [] => [[]]
  | c :: rest =>
    if c = '\n' then [] :: splitN rest
    else
      match splitN rest with
      | [] => [[c]]
      | l :: ls => (c :: l) :: ls

/-- JS `Array.prototype.join('\n')` on character lists. -/
def joinNL : List (List Char) → List Char
  | [] => []
  | [l] => l
  | l :: ls => l ++ '\n' :: joinNL ls

/-- JS `String.prototype.trim()` on the character list (strip leading and
trailing whitespace). -/
def jsTrim (l : List Char) : List Char :=
  ((l.dropWhile Char.isWhitespace).reverse.dropWhile Char.isWhitespace).reverse

/-- The local code-excerpt computation of the `request_code_snippet` handler
(background.js): split into lines, trim each, drop empties, keep at most the
first three, rejoin, then cap each line of the result at 200 characters
(appending `'...'` to a truncated line). -/
def localExcerptL (s : List Char) : List Char :=
  let raw := ((splitRN s).map jsTrim).filter (fun l => l.length > 0)
  let excerpt :=
    if raw.length = 0 then ([] : List Char)
    else if raw.length ≤ 3 then joinNL raw
    else joinNL (raw.take 3)
  joinNL ((splitN excerpt).map (fun l =>
    if l.length > 200 then l.take 200 ++ ['.', '.', '.'] else l))

/-- String wrapper for `localExcerptL` (`ctx.snippet || ''` is the input). -/
def localExcerpt (s : String) : String := String.mk (localExcerptL s.data)

/-- The `request_code_snippet` message handler from background.js. -/
def requestCodeSnippet (st : State) (req : RequestInput) : HandlerResult :=
  match req.tabId with
  | none =>
      let r : HintResponse := { ok := false, error := some "no_tab" }
      ⟨st, [Event.respond r], r⟩
  | some _tabId =>
    match req.ctx with
    | none =>
        let r : HintResponse := { ok := false, error := some "no_context" }
        ⟨st, [Event.respond r], r⟩
    | some ctx =>
      let settings := (ensureSettings st.storage).1
      let storage1 := (ensureSettings st.storage).2
      let srvPair :=
        if settings.allowSendCodeToServer then
          sendCodeToServer settings
            { problemId := ctx.problemId, snippet := ctx.snippet,
              url := ctx.url, failure := ctx.failure, request := "snippet" }
            req.server
        else ([], none)
      let serverSnippet : Option String :=
        match srvPair.2 with
        | some json => if truthy json.snippet then some json.snippet else none
        | none => none
      match serverSnippet with
      | some sn =>
          let r : HintResponse := { ok := true, snippet := some sn }
          ⟨{ st with storage := storage1 }, srvPair.1 ++ [Event.respond r], r⟩
      | none =>
          let excerpt := localExcerpt ctx.snippet
          let r : HintResponse := { ok := true, snippet := some excerpt }
          ⟨{ st with storage := storage1 }, srvPair.1 ++ [Event.respond r], r⟩

/-- `checkIdleLoop`'s per-tab body: mark a tab stuck by `'idle'` when it is
not already stuck, has some recorded activity, and
`nowTs - lastActivity >= IDLE_MS`.  (In JS a check earlier than the activity
gives a negative difference, never `>= IDLE_MS`; truncated subtraction on
`Nat` gives `0`, likewise never `>= IDLE_MS`.) -/
def checkIdleTab (nowTs : Nat) (s : TabInfo) : TabInfo :=
  let lastInput := s.lastInputTs.getD 0
  let lastSubmit := s.lastSubmitTs.getD 0
  let lastActivity := max lastInput lastSubmit
  if s.stuck = false ∧ 0 < lastActivity ∧ nowTs - lastActivity ≥ IDLE_MS then
    { s with stuck := true, failureReason := some "idle" }
  else s

/-- `checkIdleLoop` (the 30-second interval callback), over every tracked tab. -/
def checkIdleLoop (nowTs : Nat) (st : State) : State :=
  { st with tabState := fun id => (st.tabState id).map (checkIdleTab nowTs) }

/-- `clearTabStuck(tabId)`. -/
def clearTabStuck (st : State) (id : Nat) : State :=
  match st.tabState id with
  | none => st
  | some s =>
      { st with tabState := fun k =>
          if k = id then some { s with stuck := false, failureReason := none }
          else st.tabState k }

/-- The `editor_input` message handler: record `lastInputTs` and clear a
stuck-by-idle flag. -/
def editorInput (st : State) (tabId : Option Nat) (ts : Nat) : State :=
  match tabId with
  | none => st
  | some id =>
    let s0 := (st.tabState id).getD {}
    let s1 := { s0 with lastInputTs := some ts }
    let s2 :=
      if s1.stuck = true ∧ s1.failureReason = some "idle" then
        { s1 with stuck := false, failureReason := none }
      else s1
    { st with tabState := fun k => if k = id then some s2 else st.tabState k }

/-- The `run_or_submit_clicked` message handler: record `lastSubmitTs`. -/
def runOrSubmit (st : State) (tabId : Option Nat) (ts : Nat) : State :=
  match tabId with
  | none => st
  | some id =>
    let s0 := (st.tabState id).getD {}
    let s1 := { s0 with lastSubmitTs := some ts }
    { st with tabState := fun k => if k = id then some s1 else st.tabState k }

/-- The `submission_result` message handler: a `fail` marks the tab stuck
immediately (reason `payload.raw || 'failure'`), a `pass` clears the stuck
state. -/
def submissionResult (st : State) (tabId : Option Nat) (status raw : String)
    (ts : Nat) : State :=
  match tabId with
  | none => st
  | some id =>
    if status = "fail" then
      let s0 := (st.tabState id).getD {}
      let s1 := { s0 with stuck := true,
                          failureReason := some (if truthy raw then raw else "failure"),
                          lastSubmitTs := some ts }
      { st with tabState := fun k => if k = id then some s1 else st.tabState k }
    else if status = "pass" then clearTabStuck st id
    else st

/-- Every state-touching operation of the coordinator process: the message
handlers of background.js, the periodic idle tick, a tab-close cleanup, and
the options page writing `leetmentor_settings` to storage. -/
inductive Msg where
  | editorInput (tabId : Option Nat) (ts : Nat)
  | runOrSubmit (tabId : Option Nat) (ts : Nat)
  | submissionResult (tabId : Option Nat) (status raw : String) (ts : Nat)
  | requestHint (req : RequestInput)
  | requestCodeSnippet (req : RequestInput)
  | resetHints
  | idleTick (nowTs : Nat)
  | saveSettings (s : Settings)
  | tabRemoved (tabId : Nat)
deriving DecidableEq, Repr

/-- One operation's effect on the process state. -/
def applyMsg (st : State) (m : Msg) : State :=
  match m with
  | .editorInput tabId ts => editorInput st tabId ts
  | .runOrSubmit tabId ts => runOrSubmit st tabId ts
  | .submissionResult tabId status raw ts => submissionResult st tabId status raw ts
  | .requestHint req => (requestHint st req).state
  | .requestCodeSnippet req => (requestCodeSnippet st req).state
  | .resetHints => { st with storage := resetHintCounts st.storage }
  | .idleTick nowTs => checkIdleLoop nowTs st
  | .saveSettings s => { st with storage := { st.storage with settings := some s } }
  | .tabRemoved tabId =>
      { st with tabState := fun k => if k = tabId then none else st.tabState k }

/-- Run a sequence of operations. -/
def runMsgs (st : State) (ms : List Msg) : State := ms.foldl applyMsg st

/-- A service-worker restart: all in-memory state (`tabState`) is lost and
rebuilt empty; `chrome.storage.local` survives. -/
def restart (st : State) : State :=
  { storage := st.storage, tabState := fun _ => none }

/-- Recognise backend-fetch events. -/
def isServerCallE : Event → Bool
  | .serverCall _ => true
  | _ => false

/-- Recognise ledger-commit events. -/
def isCommitE : Event → Bool
  | .commitIncrement _ _ => true
  | _ => false

/-- Recognise the hint-text-assignment marker. -/
def isHintChosenE : Event → Bool
  | .hintChosen _ _ => true
  | _ => false

/-- The commit ordering discipline of one trace: exactly one ledger commit,
some hint text was obtained strictly before it, and no backend fetch happens
at or after it (so the commit follows the whole fetch/fallback step). -/
def commitDiscipline (evs : List Event) : Bool :=
  ((evs.filter isCommitE).length == 1)
  && (evs.takeWhile (fun e => !isCommitE e)).any isHintChosenE
  && ((evs.dropWhile (fun e => !isCommitE e)).filter isServerCallE).isEmpty

/-- A state whose ledger already records 3 hints for `"two-sum"`. -/
def cappedState : State :=
  { storage := { hintsMap := some (fun k => if k = "two-sum" then 3 else 0),
                 hintCache := none, settings := none },
    tabState := fun _ => none }

theorem sendCodeToServer_events (settings : Settings) (p : Payload)
    (o : ServerOutcome) :
    (sendCodeToServer settings p o).1 = []
    ∨ (sendCodeToServer settings p o).1 = [Event.serverCall p] := by
  unfold sendCodeToServer
  split
  · exact Or.inl rfl
  · split
    · exact Or.inl rfl
    · cases o <;> exact Or.inr rfl

theorem editorInput_storage (st : State) (tabId : Option Nat) (ts : Nat) :
    (editorInput st tabId ts).storage = st.storage := by
  cases tabId <;> rfl

theorem runOrSubmit_storage (st : State) (tabId : Option Nat) (ts : Nat) :
    (runOrSubmit st tabId ts).storage = st.storage := by
  cases tabId <;> rfl

theorem clearTabStuck_storage (st : State) (id : Nat) :
    (clearTabStuck st id).storage = st.storage := by
  unfold clearTabStuck
  cases st.tabState id <;> rfl

theorem submissionResult_storage (st : State) (tabId : Option Nat)
    (status raw : String) (ts : Nat) :
    (submissionResult st tabId status raw ts).storage = st.storage := by
  unfold submissionResult
  cases tabId with
  | none => rfl
  | some id =>
    by_cases h1 : status = "fail"
    · simp [h1]
    · by_cases h2 : status = "pass"
      · simp [h1, h2, clearTabStuck_storage]
      · simp [h1, h2]

theorem requestCodeSnippet_hintsMap (st : State) (req : RequestInput) :
    (requestCodeSnippet st req).state.storage.hintsMap = st.storage.hintsMap := by
  obtain ⟨tabId, ctx, srv⟩ := req
  cases tabId with
  | none => rfl
  | some t =>
    cases ctx with
    | none => rfl
    | some c =>
      simp only [requestCodeSnippet]
      split <;> rfl

/-- How one `request_hint` run affects the persisted count at any key `q`:
either it is untouched, or `q` is the derived problem key, the old count was
below the cap, and the count became exactly one more. -/
theorem requestHint_counts_cases (st : State) (req : RequestInput) (q : String) :
    getHintCounts (requestHint st req).state.storage q = getHintCounts st.storage q
    ∨ (∃ c, req.ctx = some c ∧ q = deriveProblemId c
        ∧ getHintCounts st.storage q < MAX_HINTS_PER_PROBLEM
        ∧ getHintCounts (requestHint st req).state.storage q
            = getHintCounts st.storage q + 1) := by
  obtain ⟨tabId, ctx, srv⟩ := req
  cases tabId with
  | none => exact Or.inl rfl
  | some t =>
    cases ctx with
    | none => exact Or.inl rfl
    | some c =>
      simp only [requestHint]
      split
      · exact Or.inl rfl
      · rename_i hge
        by_cases hk : q = deriveProblemId c
        · subst hk
          refine Or.inr ⟨c, rfl, rfl, not_le.mp hge, ?_⟩
          simp only [setHintCounts, getHintCounts, Option.getD_some]
          simp
        · left
          simp only [setHintCounts, getHintCounts, Option.getD_some]
          rw [if_neg hk]

theorem applyMsg_counts_mono (st : State) (m : Msg) (q : String)
    (h : m ≠ Msg.resetHints) :
    getHintCounts st.storage q ≤ getHintCounts (applyMsg st m).storage q := by
  cases m with
  | editorInput tabId ts => simp [applyMsg, editorInput_storage]
  | runOrSubmit tabId ts => simp [applyMsg, runOrSubmit_storage]
  | submissionResult tabId status raw ts => simp [applyMsg, submissionResult_storage]
  | requestHint req =>
      rcases requestHint_counts_cases st req q with hc | ⟨c, -, -, -, hc⟩ <;>
        simp only [applyMsg] <;> omega
  | requestCodeSnippet req =>
      simp only [applyMsg, getHintCounts, requestCodeSnippet_hintsMap]
      exact le_refl _
  | resetHints => exact absurd rfl h
  | idleTick nowTs => exact le_refl _
  | saveSettings s => exact le_refl _
  | tabRemoved tabId => exact le_refl _

theorem applyMsg_counts_le (st : State) (m : Msg)
    (h : ∀ q, getHintCounts st.storage q ≤ MAX_HINTS_PER_PROBLEM) (q : String) :
    getHintCounts (applyMsg st m).storage q ≤ MAX_HINTS_PER_PROBLEM := by
  cases m with
  | editorInput tabId ts => simpa [applyMsg, editorInput_storage] using h q
  | runOrSubmit tabId ts => simpa [applyMsg, runOrSubmit_storage] using h q
  | submissionResult tabId status raw ts =>
      simpa [applyMsg, submissionResult_storage] using h q
  | requestHint req =>
      rcases requestHint_counts_cases st req q with hc | ⟨c, -, -, hlt, hc⟩ <;>
        simp only [applyMsg] <;> rw [hc]
      · exact h q
      · omega
  | requestCodeSnippet req =>
      simp only [applyMsg, getHintCounts, requestCodeSnippet_hintsMap]
      exact h q
  | resetHints => simp [applyMsg, resetHintCounts, getHintCounts]
  | idleTick nowTs => exact h q
  | saveSettings s => exact h q
  | tabRemoved tabId => exact h q

theorem runMsgs_counts_le (ms : List Msg) (st : State)
    (h : ∀ q, getHintCounts st.storage q ≤ MAX_HINTS_PER_PROBLEM) (q : String) :
    getHintCounts (runMsgs st ms).storage q ≤ MAX_HINTS_PER_PROBLEM := by
  induction ms generalizing st with
  | nil => exact h q
  | cons m rest ih => exact ih (applyMsg st m) (applyMsg_counts_le st m h)

/-- Claim C1: across every operation sequence, the per-problem delivered-hint
count recorded in the ledger never exceeds CAP = 3, and no operation other
than the explicit reset ever lowers a count. -/
theorem hint_count_cap_and_monotone :
    (∀ (st : State) (m : Msg) (q : String), m ≠ Msg.resetHints →
        getHintCounts st.storage q ≤ getHintCounts (applyMsg st m).storage q)
  ∧ (∀ (ms : List Msg) (q : String),
        getHintCounts (runMsgs initState ms).storage q ≤ MAX_HINTS_PER_PROBLEM) :=
  ⟨fun st m q h => applyMsg_counts_mono st m q h,
   fun ms q => runMsgs_counts_le ms initState (fun _ => Nat.zero_le _) q⟩

/-- Witness for C1: a concrete hint request does not lower the count. -/
theorem hint_count_cap_and_monotone_witness :
    getHintCounts initState.storage "two-sum"
      ≤ getHintCounts (applyMsg initState (Msg.requestHint
          ⟨some 1, some ⟨"two-sum", "", "", ""⟩,
           ServerOutcome.failure⟩)).storage "two-sum" :=
  hint_count_cap_and_monotone.1 initState _ "two-sum" (by decide)

/-- Claim C2: a hint request arriving while the count for the derived
problem key already equals CAP = 3 changes nothing at all (in particular the
ledger), answers with the `'ask_for_code'` cap-reached signal and no hint
text, and issues no backend call. -/
theorem cap_reached_no_mutation (st : State) (t : Nat) (c : Context)
    (srv : ServerOutcome)
    (hcap : getHintCounts st.storage (deriveProblemId c) = MAX_HINTS_PER_PROBLEM) :
    (requestHint st ⟨some t, some c, srv⟩).state = st
  ∧ (requestHint st ⟨some t, some c, srv⟩).resp
      = { ok := true, action := some "ask_for_code" }
  ∧ ((requestHint st ⟨some t, some c, srv⟩).resp.hint).getD "" = ""
  ∧ (requestHint st ⟨some t, some c, srv⟩).events.filter isServerCallE = [] := by
  simp only [requestHint]
  rw [if_pos (le_of_eq hcap.symm)]
  exact ⟨rfl, rfl, rfl, rfl⟩

/-- Witness for C2 at the concrete capped state. -/
theorem cap_reached_no_mutation_witness :
    (requestHint cappedState
        ⟨some 1, some ⟨"two-sum", "", "", ""⟩, ServerOutcome.failure⟩).state
      = cappedState
  ∧ (requestHint cappedState
        ⟨some 1, some ⟨"two-sum", "", "", ""⟩, ServerOutcome.failure⟩).resp
      = { ok := true, action := some "ask_for_code" }
  ∧ ((requestHint cappedState
        ⟨some 1, some ⟨"two-sum", "", "", ""⟩, ServerOutcome.failure⟩).resp.hint).getD ""
      = ""
  ∧ (requestHint cappedState
        ⟨some 1, some ⟨"two-sum", "", "", ""⟩,
         ServerOutcome.failure⟩).events.filter isServerCallE = [] :=
  cap_reached_no_mutation cappedState 1 ⟨"two-sum", "", "", ""⟩
    ServerOutcome.failure (by decide)

/-- Claim C3: a request that fails before any hint is deliverable (no tab or
no context) performs no ledger commit and leaves the state untouched; every
non-capped delivered request commits the ledger increment exactly once, only
after the hint text has been obtained, and never before the fetch/fallback
step (no backend call occurs at or after the commit). -/
theorem commit_once_after_hint (st : State) (req : RequestInput) :
    ((req.tabId = none ∨ req.ctx = none) →
        (requestHint st req).state = st
      ∧ (requestHint st req).events.filter isCommitE = [])
  ∧ (∀ t c, req.tabId = some t → req.ctx = some c →
        getHintCounts st.storage (deriveProblemId c) < MAX_HINTS_PER_PROBLEM →
        commitDiscipline (requestHint st req).events = true) := by
  obtain ⟨tabId, ctx, srv⟩ := req
  constructor
  · rintro (h | h)
    · cases h
      exact ⟨rfl, rfl⟩
    · cases h
      cases tabId <;> exact ⟨rfl, rfl⟩
  · rintro t c ⟨rfl⟩ hc hlt
    cases hc
    simp only [requestHint]
    rw [if_neg (not_le.mpr hlt)]
    rcases sendCodeToServer_events (ensureSettings st.storage).1
        { problemId := deriveProblemId c, snippet := c.snippet,
          url := c.url, failure := c.failure, request := "" } srv with hs | hs
    all_goals
      by_cases hA : (ensureSettings st.storage).1.allowSendCodeToServer = true
    · simp only [hA, if_pos, hs]
      simp [commitDiscipline, isCommitE, isHintChosenE, isServerCallE]
    · simp only [hA]
      simp [commitDiscipline, isCommitE, isHintChosenE, isServerCallE]
    · simp only [hA, if_pos, hs]
      simp [commitDiscipline, isCommitE, isHintChosenE, isServerCallE]
    · simp only [hA]
      simp [commitDiscipline, isCommitE, isHintChosenE, isServerCallE]

/-- Witness for C3: the failing branch and the delivered branch at concrete
inputs. -/
theorem commit_once_after_hint_witness :
    ((requestHint initState ⟨none, some ⟨"p", "", "", ""⟩,
        ServerOutcome.failure⟩).state = initState
      ∧ (requestHint initState ⟨none, some ⟨"p", "", "", ""⟩,
          ServerOutcome.failure⟩).events.filter isCommitE = [])
  ∧ commitDiscipline (requestHint initState ⟨some 1, some ⟨"p", "", "", ""⟩,
        ServerOutcome.failure⟩).events = true :=
  ⟨(commit_once_after_hint initState
      ⟨none, some ⟨"p", "", "", ""⟩, ServerOutcome.failure⟩).1 (Or.inl rfl),
   (commit_once_after_hint initState
      ⟨some 1, some ⟨"p", "", "", ""⟩, ServerOutcome.failure⟩).2
      1 ⟨"p", "", "", ""⟩ rfl rfl (by decide)⟩

/-- Claim C4: writing settings with consent off makes every subsequent hint
request skip backend contact entirely — its trace contains no fetch event,
so no part of the snippet leaves the local boundary — and a delivered hint
comes from the local heuristic `generateHint`. -/
theorem consent_off_no_backend :
    (∀ (st : State) (u : String),
        (applyMsg st (Msg.saveSettings
            { allowSendCodeToServer := false, serverUrl := u })).storage.settings
          = some { allowSendCodeToServer := false, serverUrl := u })
  ∧ (∀ (st : State) (req : RequestInput),
        (ensureSettings st.storage).1.allowSendCodeToServer = false →
        (requestHint st req).events.filter isServerCallE = []
      ∧ (∀ t c, req.tabId = some t → req.ctx = some c →
          getHintCounts st.storage (deriveProblemId c) < MAX_HINTS_PER_PROBLEM →
          (requestHint st req).resp.hint
            = some (generateHint
                { problemId := deriveProblemId c, snippet := c.snippet,
                  url := c.url, failure := c.failure }))) := by
  refine ⟨fun st u => rfl, fun st req hA => ?_⟩
  obtain ⟨tabId, ctx, srv⟩ := req
  cases tabId with
  | none =>
      exact ⟨rfl, by rintro t c ⟨⟩⟩
  | some t =>
    cases ctx with
    | none =>
        exact ⟨rfl, by rintro t' c h ⟨⟩⟩
    | some c =>
      simp only [requestHint]
      by_cases hcap : getHintCounts st.storage (deriveProblemId c)
          ≥ MAX_HINTS_PER_PROBLEM
      · rw [if_pos hcap]
        refine ⟨rfl, ?_⟩
        rintro t' c' ⟨rfl⟩ ⟨rfl⟩ hlt
        exact absurd hcap (not_le.mpr hlt)
      · rw [if_neg hcap]
        rw [hA]
        constructor
        · simp [isServerCallE]
        · rintro t' c' ⟨rfl⟩ ⟨rfl⟩ hlt
          rfl

/-- Witness for C4: on a fresh install (consent defaults to off) a request
with a would-succeed server oracle still makes no backend call and answers
with the local heuristic hint. -/
theorem consent_off_no_backend_witness :
    (requestHint initState ⟨some 1, some ⟨"p", "s", "u", "f"⟩,
        ServerOutcome.success "H" ""⟩).events.filter isServerCallE = []
  ∧ (requestHint initState ⟨some 1, some ⟨"p", "s", "u", "f"⟩,
        ServerOutcome.success "H" ""⟩).resp.hint
      = some (generateHint
          { problemId := deriveProblemId ⟨"p", "s", "u", "f"⟩, snippet := "s",
            url := "u", failure := "f" }) :=
  ⟨(consent_off_no_backend.2 initState
      ⟨some 1, some ⟨"p", "s", "u", "f"⟩, ServerOutcome.success "H" ""⟩ rfl).1,
   (consent_off_no_backend.2 initState
      ⟨some 1, some ⟨"p", "s", "u", "f"⟩, ServerOutcome.success "H" ""⟩ rfl).2
      1 ⟨"p", "s", "u", "f"⟩ rfl rfl (by decide)⟩

theorem generateHint_nonempty (c : Context) : generateHint c ≠ "" := by
  simp only [generateHint]
  split
  · decide
  · split
    · decide
    · split <;> decide

/-- Claim C5: when the ledger is below the cap and the backend call fails
(timeout, non-2xx, network error) or yields a body without a usable hint
field, the request still succeeds, no error is propagated, and the delivered
hint is the local heuristic's output, which is never empty. -/
theorem backend_failure_local_fallback (st : State) (t : Nat) (c : Context)
    (srv : ServerOutcome)
    (hcap : getHintCounts st.storage (deriveProblemId c) < MAX_HINTS_PER_PROBLEM)
    (hfail : srv = ServerOutcome.failure
      ∨ ∃ sn, srv = ServerOutcome.success "" sn) :
    (requestHint st ⟨some t, some c, srv⟩).resp.ok = true
  ∧ (requestHint st ⟨some t, some c, srv⟩).resp.error = none
  ∧ (requestHint st ⟨some t, some c, srv⟩).resp.hint
      = some (generateHint
          { problemId := deriveProblemId c, snippet := c.snippet,
            url := c.url, failure := c.failure })
  ∧ generateHint { problemId := deriveProblemId c, snippet := c.snippet,
                   url := c.url, failure := c.failure } ≠ "" := by
  have hne := generateHint_nonempty
    { problemId := deriveProblemId c, snippet := c.snippet,
      url := c.url, failure := c.failure }
  have hcap' : ¬ getHintCounts st.storage (deriveProblemId c)
      ≥ MAX_HINTS_PER_PROBLEM := not_le.mpr hcap
  have htr : truthy "" = false := rfl
  by_cases hA : (ensureSettings st.storage).1.allowSendCodeToServer = true <;>
    by_cases hU : truthy (ensureSettings st.storage).1.serverUrl = true <;>
    rcases hfail with rfl | ⟨sn, rfl⟩ <;>
    simp [requestHint, sendCodeToServer, hcap', hA, hU, hne, htr]

/-- Witness for C5: a failed backend call on a fresh ledger still delivers
the non-empty local hint. -/
theorem backend_failure_local_fallback_witness :
    (requestHint initState ⟨some 1, some ⟨"two-sum", "", "", ""⟩,
        ServerOutcome.failure⟩).resp.ok = true
  ∧ (requestHint initState ⟨some 1, some ⟨"two-sum", "", "", ""⟩,
        ServerOutcome.failure⟩).resp.error = none
  ∧ (requestHint initState ⟨some 1, some ⟨"two-sum", "", "", ""⟩,
        ServerOutcome.failure⟩).resp.hint
      = some (generateHint
          { problemId := deriveProblemId ⟨"two-sum", "", "", ""⟩, snippet := "",
            url := "", failure := "" })
  ∧ generateHint { problemId := deriveProblemId ⟨"two-sum", "", "", ""⟩,
                   snippet := "", url := "", failure := "" } ≠ "" :=
  backend_failure_local_fallback initState 1 ⟨"two-sum", "", "", ""⟩
    ServerOutcome.failure (by decide) (Or.inl rfl)

/-- Claim C6: per-problem hint counts live in durable storage: a
service-worker restart (which clears all in-memory state) preserves every
count — and the whole durable store — so the CAP = 3 bound continues to hold
across any operations run after any restart. -/
theorem counts_durable_across_restart :
    (∀ (st : State) (pid : String),
        getHintCounts (restart st).storage pid = getHintCounts st.storage pid)
  ∧ (∀ st : State, (restart st).storage = st.storage)
  ∧ (∀ (ms₁ ms₂ : List Msg) (pid : String),
        getHintCounts (runMsgs (restart (runMsgs initState ms₁)) ms₂).storage pid
          ≤ MAX_HINTS_PER_PROBLEM) :=
  ⟨fun _ _ => rfl, fun _ => rfl,
   fun ms₁ ms₂ pid =>
     runMsgs_counts_le ms₂ (restart (runMsgs initState ms₁))
       (fun q => runMsgs_counts_le ms₁ initState (fun _ => Nat.zero_le _) q) pid⟩

/-- Claim C7: with last activity at time `T`, the idle check at
`T + 3min - 1s` does not mark the session stuck, the check at
`T + 3min + 1s` marks it stuck with reason `'idle'`, and a session with no
recorded activity at all is never marked idle by any check; the periodic
tick applies exactly this per-session check to every tracked session. -/
theorem idle_check_boundary_behavior :
    (∀ (T : Nat) (s : TabInfo), 0 < T → s.stuck = false →
        max (s.lastInputTs.getD 0) (s.lastSubmitTs.getD 0) = T →
        (checkIdleTab (T + (IDLE_MS - 1000)) s).stuck = false
      ∧ (checkIdleTab (T + (IDLE_MS + 1000)) s).stuck = true
      ∧ (checkIdleTab (T + (IDLE_MS + 1000)) s).failureReason = some "idle")
  ∧ (∀ (nowTs : Nat) (s : TabInfo), s.lastInputTs = none → s.lastSubmitTs = none →
        checkIdleTab nowTs s = s)
  ∧ (∀ (st : State) (nowTs : Nat) (id : Nat),
        (applyMsg st (Msg.idleTick nowTs)).tabState id
          = (st.tabState id).map (checkIdleTab nowTs)) := by
  refine ⟨fun T s hT hstuck hmax => ?_, fun nowTs s h1 h2 => ?_,
    fun st nowTs id => rfl⟩
  · simp only [checkIdleTab]
    rw [hmax]
    refine ⟨?_, ?_, ?_⟩
    · rw [if_neg]
      · exact hstuck
      · rintro ⟨-, -, habs⟩
        simp only [IDLE_MS] at habs
        omega
    · rw [if_pos ⟨hstuck, hT, by simp only [IDLE_MS]; omega⟩]
    · rw [if_pos ⟨hstuck, hT, by simp only [IDLE_MS]; omega⟩]
  · simp only [checkIdleTab, h1, h2]
    rw [if_neg]
    rintro ⟨-, habs, -⟩
    simp at habs

/-- Witness for C7 at `T = 5`, a session with a single recorded input. -/
theorem idle_check_boundary_behavior_witness :
    (checkIdleTab (5 + (IDLE_MS - 1000)) { lastInputTs := some 5 }).stuck = false
  ∧ (checkIdleTab (5 + (IDLE_MS + 1000)) { lastInputTs := some 5 }).stuck = true
  ∧ (checkIdleTab (5 + (IDLE_MS + 1000)) { lastInputTs := some 5 }).failureReason
      = some "idle" :=
  idle_check_boundary_behavior.1 5 { lastInputTs := some 5 }
    (by decide) (by decide) (by decide)

/-- Claim C9: the reset operation is idempotent (running it twice equals
running it once), and it empties the hint ledger and the hint cache while
leaving the persisted settings untouched. -/
theorem reset_idempotent_and_preserves_settings :
    (∀ st : State, applyMsg (applyMsg st Msg.resetHints) Msg.resetHints
        = applyMsg st Msg.resetHints)
  ∧ (∀ st : State, (applyMsg st Msg.resetHints).storage.settings
        = st.storage.settings)
  ∧ (∀ (st : State) (pid : String),
        getHintCounts (applyMsg st Msg.resetHints).storage pid = 0)
  ∧ (∀ (st : State) (pid : String),
        getHintCache (applyMsg st Msg.resetHints).storage pid = none) :=
  ⟨fun _ => rfl, fun _ => rfl, fun _ _ => rfl, fun _ _ => rfl⟩

/-- Claim C10: the ledger/cache key is the context's `problemId`, falling
back to the context's `url` and then to the literal `"unknown"`; all
contexts lacking both identifiers share the single `"unknown"` entry; and a
hint request never changes the ledger at any key other than the derived
one. -/
theorem ledger_key_derivation :
    (∀ c : Context, truthy c.problemId = true → deriveProblemId c = c.problemId)
  ∧ (∀ c : Context, truthy c.problemId = false → truthy c.url = true →
        deriveProblemId c = c.url)
  ∧ (∀ c : Context, truthy c.problemId = false → truthy c.url = false →
        deriveProblemId c = "unknown")
  ∧ (∀ c₁ c₂ : Context, truthy c₁.problemId = false → truthy c₁.url = false →
        truthy c₂.problemId = false → truthy c₂.url = false →
        deriveProblemId c₁ = deriveProblemId c₂)
  ∧ (∀ (st : State) (req : RequestInput) (q : String),
        (∀ c, req.ctx = some c → q ≠ deriveProblemId c) →
        getHintCounts (requestHint st req).state.storage q
          = getHintCounts st.storage q) := by
  refine ⟨fun c h => by simp [deriveProblemId, h],
    fun c h1 h2 => by simp [deriveProblemId, h1, h2],
    fun c h1 h2 => by simp [deriveProblemId, h1, h2],
    fun c₁ c₂ ha hb hc hd => by simp [deriveProblemId, ha, hb, hc, hd],
    fun st req q hq => ?_⟩
  obtain ⟨tabId, ctx, srv⟩ := req
  cases tabId with
  | none => rfl
  | some t =>
    cases ctx with
    | none => rfl
    | some c =>
      simp only [requestHint]
      split
      · rfl
      · simp only [setHintCounts, getHintCounts]
        simp only [Option.getD_some]
        rw [if_neg (hq c rfl)]

/-- Witness for C10: concrete contexts exercising each fallback clause. -/
theorem ledger_key_derivation_witness :
    deriveProblemId { problemId := "p", snippet := "", url := "u", failure := "" } = "p"
  ∧ deriveProblemId { problemId := "", snippet := "", url := "u", failure := "" } = "u"
  ∧ deriveProblemId { problemId := "", snippet := "", url := "", failure := "" } = "unknown"
  ∧ getHintCounts (requestHint initState
        ⟨some 1, some { problemId := "p", snippet := "", url := "", failure := "" },
         ServerOutcome.failure⟩).state.storage "other"
      = getHintCounts initState.storage "other" :=
  ⟨ledger_key_derivation.1 _ (by decide),
   ledger_key_derivation.2.1 _ (by decide) (by decide),
   ledger_key_derivation.2.2.1 _ (by decide) (by decide),
   ledger_key_derivation.2.2.2.2 initState _ "other"
     (by rintro c ⟨rfl⟩; decide)⟩

theorem splitRN_no_newline (s : List Char) : ∀ l ∈ splitRN s, '\n' ∉ l := by
  induction s using splitRN.induct with
  | case1 =>
      intro l hl
      simp only [splitRN, List.mem_singleton] at hl
      simp [hl]
  | case2 rest ih =>
      intro l hl
      rw [splitRN.eq_2] at hl
      rcases List.mem_cons.mp hl with rfl | hl
      · simp
      · exact ih l hl
  | case3 rest ih =>
      intro l hl
      rw [splitRN.eq_3] at hl
      rcases List.mem_cons.mp hl with rfl | hl
      · simp
      · exact ih l hl
  | case4 c rest h1 h2 hsp ih =>
      intro l hl
      rw [splitRN.eq_4 c rest h1 h2, hsp] at hl
      rcases List.mem_singleton.mp hl with rfl
      intro hm
      rcases List.mem_singleton.mp hm with rfl
      exact h2 rfl
  | case5 c rest h1 h2 hd tl hsp ih =>
      intro l hl
      rw [splitRN.eq_4 c rest h1 h2, hsp] at hl
      rcases List.mem_cons.mp hl with rfl | hl'
      · intro hm
        rcases List.mem_cons.mp hm with rfl | hm'
        · exact h2 rfl
        · exact ih hd (by rw [hsp]; exact List.mem_cons_self hd tl) hm'
      · exact ih l (by rw [hsp]; exact List.mem_cons_of_mem hd hl')

theorem jsTrim_subset (l : List Char) : ∀ x ∈ jsTrim l, x ∈ l := by
  intro x hx
  unfold jsTrim at hx
  rw [List.mem_reverse] at hx
  have hx2 := (List.dropWhile_sublist _).mem hx
  rw [List.mem_reverse] at hx2
  exact (List.dropWhile_sublist _).mem hx2

theorem splitN_no_newline_id (l : List Char) (h : '\n' ∉ l) : splitN l = [l] := by
  induction l with
  | nil => rfl
  | cons c rest ih =>
      have hc : c ≠ '\n' := fun hc => h (hc ▸ List.mem_cons_self c rest)
      have hrest : '\n' ∉ rest := fun hm => h (List.mem_cons_of_mem c hm)
      simp only [splitN, if_neg hc, ih hrest]

theorem splitN_append (l t : List Char) (h : '\n' ∉ l) :
    splitN (l ++ '\n' :: t) = l :: splitN t := by
  induction l with
  | nil => simp [splitN]
  | cons c rest ih =>
      have hc : c ≠ '\n' := fun hc => h (hc ▸ List.mem_cons_self c rest)
      have hrest : '\n' ∉ rest := fun hm => h (List.mem_cons_of_mem c hm)
      simp only [List.cons_append, splitN, if_neg hc]
      rw [show rest.append ('\n' :: t) = rest ++ '\n' :: t from rfl, ih hrest]

theorem map_cap_id (ls : List (List Char)) (h : ∀ l ∈ ls, l.length ≤ 200) :
    ls.map (fun l => if l.length > 200 then l.take 200 ++ ['.', '.', '.'] else l)
      = ls := by
  induction ls with
  | nil => rfl
  | cons a tl ih =>
      simp only [List.map_cons, List.cons.injEq]
      constructor
      · rw [if_neg (by have := h a (List.mem_cons_self a tl); omega)]
      · exact ih (fun x hx => h x (List.mem_cons_of_mem a hx))

theorem splitN_joinNL (ls : List (List Char)) (hne : ls ≠ [])
    (h : ∀ l ∈ ls, '\n' ∉ l) : splitN (joinNL ls) = ls := by
  induction ls with
  | nil => exact absurd rfl hne
  | cons l rest ih =>
      cases rest with
      | nil =>
          simp only [joinNL]
          exact splitN_no_newline_id l (h l (List.mem_cons_self l []))
      | cons l₂ rest₂ =>
          have hstep : joinNL (l :: l₂ :: rest₂) = l ++ '\n' :: joinNL (l₂ :: rest₂) := rfl
          rw [hstep, splitN_append l _ (h l (List.mem_cons_self l _)),
            ih (by simp) (fun x hx => h x (List.mem_cons_of_mem l hx))]

/-- Counterexample for claim C8: on the empty snippet the local excerpt
generator returns the empty string, not a non-empty generic starter
fragment; and on a single 201-character line it returns the 200-character
truncation with `'...'` appended, not the line itself — so the result is not
always literally the first three non-empty trimmed lines. -/
theorem excerpt_counterexample :
    localExcerpt "" = ""
  ∧ localExcerpt (String.mk (List.replicate 201 'a'))
      = String.mk (List.replicate 200 'a' ++ ['.', '.', '.'])
  ∧ localExcerpt (String.mk (List.replicate 201 'a'))
      ≠ String.mk (List.replicate 201 'a') := by
  constructor
  · rfl
  set_option maxRecDepth 8000 in
  constructor
  · decide
  · decide

/-- Claim C8 (amended): the local code-excerpt generator returns the first
three non-empty trimmed lines joined by newlines, with each line of the
result capped at 200 characters (so exactly those lines whenever each is at
most 200 characters long); on snippet `"a\nb\n\nc\nd"` it yields exactly
`"a\nb\nc"`; on an empty snippet it returns the empty string. -/
theorem excerpt_first_three_lines :
    (∀ s : String,
        (∀ l ∈ (((splitRN s.data).map jsTrim).filter (fun l => l.length > 0)).take 3,
            l.length ≤ 200) →
        localExcerpt s
          = String.mk (joinNL
              ((((splitRN s.data).map jsTrim).filter (fun l => l.length > 0)).take 3)))
  ∧ localExcerpt "a\nb\n\nc\nd" = "a\nb\nc"
  ∧ localExcerpt "" = "" := by
  refine ⟨fun s hlen => ?_, by decide, rfl⟩
  simp only [localExcerpt, localExcerptL]
  set raw := ((splitRN s.data).map jsTrim).filter (fun l => l.length > 0) with hraw
  have hsub : ∀ l ∈ raw.take 3, '\n' ∉ l := by
    intro l hl
    have hl1 : l ∈ raw := List.take_subset 3 raw hl
    rw [hraw] at hl1
    have hl2 := List.mem_of_mem_filter hl1
    rcases List.mem_map.mp hl2 with ⟨l₀, hl₀, rfl⟩
    intro hmem
    exact splitRN_no_newline s.data l₀ hl₀ (jsTrim_subset l₀ _ hmem)
  have hmap := map_cap_id (raw.take 3) hlen
  by_cases h0 : raw.length = 0
  · rw [if_pos h0]
    have hnil : raw = [] := List.length_eq_zero.mp h0
    rw [hnil]
    rfl
  · rw [if_neg h0]
    have htake : raw.take 3 ≠ [] := by
      have hpos : 0 < raw.length := Nat.pos_of_ne_zero h0
      have : 0 < (raw.take 3).length := by
        rw [List.length_take]
        omega
      exact List.ne_nil_of_length_pos this
    by_cases h3 : raw.length ≤ 3
    · rw [if_pos h3]
      have hall : raw.take 3 = raw := List.take_of_length_le h3
      rw [hall] at hsub hmap ⊢
      rw [splitN_joinNL raw (List.ne_nil_of_length_pos (Nat.pos_of_ne_zero h0)) hsub,
        hmap]
    · rw [if_neg h3]
      rw [splitN_joinNL _ htake hsub, hmap]

/-- Witness for the amended C8 at its concrete scenario snippet. -/
theorem excerpt_first_three_lines_witness :
    localExcerpt "a\nb\n\nc\nd"
      = String.mk (joinNL
          ((((splitRN ("a\nb\n\nc\nd" : String).data).map jsTrim).filter
              (fun l => l.length > 0)).take 3)) :=
  excerpt_first_three_lines.1 "a\nb\n\nc\nd" (by decide)

end LeetMentor
